import Mathlib

/-!
Verification of the procedural scene-generation engine of the
remotion-animator repository: the seeded attribute generator, the orbit
kinematics evaluator, the proximity graph builder, the arc-gauge geometry
generator and the animation-preset interpolation, embedded shallowly over
the real numbers (the source computes with IEEE doubles; the embedding
uses exact real arithmetic for the same formulas).
-/

/-- Seeded random from KnowledgeGraph.tsx: fractional part of a scaled
sine of the seed. -/
noncomputable def seededRandom (seed : ℝ) : ℝ :=
  Real.sin (seed * 9999) * 10000 - ⌊Real.sin (seed * 9999) * 10000⌋

/-- Static per-entity attributes of one graph node (KnowledgeGraph.tsx). -/
structure NodeData where
  id : ℕ
  baseX : ℝ
  baseY : ℝ
  orbitRadius : ℝ
  orbitSpeed : ℝ
  orbitPhase : ℝ
  secondaryRadius : ℝ
  secondarySpeed : ℝ
  secondaryPhase : ℝ
  size : ℝ
  color : String

/-- Kinematics evaluator from KnowledgeGraph.tsx: primary orbit plus a
secondary wobble whose y-speed carries the extra 1.3 multiplier. -/
noncomputable def getNodePosition (node : NodeData) (frame duration : ℝ) : ℝ × ℝ :=
  let t := frame / duration * Real.pi * 2
  let primaryX := Real.cos (t * node.orbitSpeed + node.orbitPhase) * node.orbitRadius
  let primaryY := Real.sin (t * node.orbitSpeed + node.orbitPhase) * node.orbitRadius
  let secondaryX := Real.cos (t * node.secondarySpeed + node.secondaryPhase) * node.secondaryRadius
  let secondaryY := Real.sin (t * node.secondarySpeed * 1.3 + node.secondaryPhase) * node.secondaryRadius
  (node.baseX + primaryX + secondaryX, node.baseY + primaryY + secondaryY)

/-- Euclidean distance helper from KnowledgeGraph.tsx. -/
noncomputable def getDistance (x1 y1 x2 y2 : ℝ) : ℝ :=
  Real.sqrt ((x2 - x1) ^ 2 + (y2 - y1) ^ 2)

/-- The five-entry palette used by the node generator. -/
def palette (accentColor secondaryColor : String) : List String :=
  [accentColor, secondaryColor, "#0047AB", "#6495ED", "#00308F"]

/-- Palette index drawn by the node generator:
floor of seededRandom(i*1000 + 10) scaled by the palette length. -/
noncomputable def colorIndex (i : ℕ) (len : ℕ) : ℤ :=
  ⌊seededRandom ((i : ℝ) * 1000 + 10) * (len : ℝ)⌋

/-- One node of the generator loop in KnowledgeGraph.tsx (seed = i*1000,
attributes drawn with fixed offsets 1..10). An out-of-range palette
access would surface as the sentinel string. -/
noncomputable def mkNode (i : ℕ) (width height nodeSize : ℝ)
    (accentColor secondaryColor : String) : NodeData :=
  let seed : ℝ := (i : ℝ) * 1000
  let colors := palette accentColor secondaryColor
  let padding : ℝ := 200
  { id := i
    baseX := padding + seededRandom (seed + 1) * (width - padding * 2)
    baseY := padding + seededRandom (seed + 2) * (height - padding * 2)
    orbitRadius := 30 + seededRandom (seed + 3) * 100
    orbitSpeed := 0.5 + seededRandom (seed + 4) * 1.5
    orbitPhase := seededRandom (seed + 5) * Real.pi * 2
    secondaryRadius := 10 + seededRandom (seed + 6) * 30
    secondarySpeed := 2 + seededRandom (seed + 7) * 3
    secondaryPhase := seededRandom (seed + 8) * Real.pi * 2
    size := nodeSize * (0.6 + seededRandom (seed + 9) * 0.8)
    color := ((colors)[(colorIndex i colors.length).toNat]?).getD "undefined" }

/-- The node generator of KnowledgeGraph.tsx (useMemo loop). -/
noncomputable def generateNodes (nodeCount : ℕ) (width height nodeSize : ℝ)
    (accentColor secondaryColor : String) : List NodeData :=
  (List.range nodeCount).map fun i => mkNode i width height nodeSize accentColor secondaryColor

/-- Per-frame position list of KnowledgeGraph.tsx. -/
noncomputable def framePositions (nodes : List NodeData) (frame durationInFrames : ℝ) :
    List (ℝ × ℝ) :=
  nodes.map fun node => getNodePosition node frame durationInFrames

/-- Distance between the positions at indices i and j. -/
noncomputable def pairDistance (positions : List (ℝ × ℝ)) (i j : ℕ) : ℝ :=
  getDistance (positions.getD i (0, 0)).1 (positions.getD i (0, 0)).2
    (positions.getD j (0, 0)).1 (positions.getD j (0, 0)).2

/-- Edge opacity: quadratic falloff of the normalized distance, scaled by
the 0.8 cap (the source computes pow(1 - dist/threshold, 2) and pushes
opacity * 0.8). -/
noncomputable def connectionOpacity (dist threshold : ℝ) : ℝ :=
  (1 - dist / threshold) ^ 2 * 0.8

/-- Inner loop of the connection builder: j runs from i+1 to N-1. -/
noncomputable def innerEdges (positions : List (ℝ × ℝ)) (threshold : ℝ) (i : ℕ) :
    List (ℕ × ℕ × ℝ) :=
  (List.range' (i + 1) (positions.length - (i + 1))).filterMap fun j =>
    if pairDistance positions i j < threshold then
      some (i, j, connectionOpacity (pairDistance positions i j) threshold)
    else none

/-- The connections double loop of KnowledgeGraph.tsx. -/
noncomputable def buildEdges (positions : List (ℝ × ℝ)) (threshold : ℝ) :
    List (ℕ × ℕ × ℝ) :=
  (List.range positions.length).flatMap (innerEdges positions threshold)

/-- Polar-to-Cartesian conversion of the ArcGauge components (0 degrees
points up: 90 is subtracted before converting to radians). -/
noncomputable def polarToCartesian (cx cy angle r : ℝ) : ℝ × ℝ :=
  (cx + r * Real.cos ((angle - 90) * Real.pi / 180),
   cy + r * Real.sin ((angle - 90) * Real.pi / 180))

/-- Background large-arc flag of ArcGauge (FuiPanorama.tsx / FuiClock.tsx). -/
noncomputable def largeArcFlag (startAngle endAngle : ℝ) : ℕ :=
  if endAngle - startAngle > 180 then 1 else 0

/-- Progress large-arc flag of ArcGauge (FuiPanorama.tsx / FuiClock.tsx). -/
noncomputable def progressLargeArcFlag (startAngle endAngle progress : ℝ) : ℕ :=
  if (endAngle - startAngle) * progress > 180 then 1 else 0

/-- One tick mark of the gauge: an inner and an outer endpoint. -/
structure ArcTick where
  inner : ℝ × ℝ
  outer : ℝ × ℝ

/-- The geometric output of the ArcGauge component of FuiPanorama.tsx. -/
structure ArcGaugeGeometry where
  bgStart : ℝ × ℝ
  bgEnd : ℝ × ℝ
  progressEnd : ℝ × ℝ
  largeArc : ℕ
  progressLargeArc : ℕ
  ticks : List ArcTick

/-- ArcGauge of FuiPanorama.tsx: background arc endpoints, progress arc
endpoint, both large-arc flags, and tickCount + 1 tick marks (major every
third tick, inner radius shortened by 12 or 6, outer radius + 2). -/
noncomputable def arcGauge (cx cy radius startAngle endAngle progress : ℝ)
    (tickCount : ℕ) : ArcGaugeGeometry :=
  { bgStart := polarToCartesian cx cy startAngle radius
    bgEnd := polarToCartesian cx cy endAngle radius
    progressEnd := polarToCartesian cx cy (startAngle + (endAngle - startAngle) * progress) radius
    largeArc := largeArcFlag startAngle endAngle
    progressLargeArc := progressLargeArcFlag startAngle endAngle progress
    ticks := (List.range (tickCount + 1)).map fun i =>
      let angle := startAngle + (endAngle - startAngle) * ((i : ℝ) / (tickCount : ℝ))
      { inner := polarToCartesian cx cy angle (radius - (if i % 3 = 0 then 12 else 6))
        outer := polarToCartesian cx cy angle (radius + 2) } }

/-- Extrapolation policy of the interpolation primitive. -/
inductive Extrapolate
  | extend
  | clamp
deriving DecidableEq

/-- Modelled from the spec: the interpolation primitive (the `interpolate`
function imported from the remotion package, whose source is not part of
this repository) for a two-point keyframe table, as described in spec
section 4.3: inside the domain piecewise-linear interpolation, outside it
the per-side policy applies, where clamp pins to the nearest boundary
output and the default (extend) linearly extends the slope of the nearest
segment. All call sites in this repository use two-point tables and the
default linear easing. -/
def interpolate (x i0 i1 o0 o1 : ℚ) (left right : Extrapolate) : ℚ :=
  if x < i0 then
    match left with
    | Extrapolate.clamp => o0
    | Extrapolate.extend => o0 + (x - i0) * ((o1 - o0) / (i1 - i0))
  else if i1 < x then
    match right with
    | Extrapolate.clamp => o1
    | Extrapolate.extend => o0 + (x - i0) * ((o1 - o0) / (i1 - i0))
  else
    o0 + (x - i0) * ((o1 - o0) / (i1 - i0))

/-- The seven animation presets of types.ts. -/
inductive AnimationPreset
  | zoomIn
  | zoomOut
  | panLeft
  | panRight
  | panUp
  | panDown
  | kenBurns
deriving DecidableEq

/-- The six numeric fields of one preset configuration (types.ts). -/
structure AnimationConfig where
  startScale : ℚ
  endScale : ℚ
  startX : ℚ
  endX : ℚ
  startY : ℚ
  endY : ℚ

/-- The preset table ANIMATION_CONFIGS of types.ts. -/
def ANIMATION_CONFIGS : AnimationPreset → AnimationConfig
  | AnimationPreset.zoomIn => ⟨1, 1.3, 0, 0, 0, 0⟩
  | AnimationPreset.zoomOut => ⟨1.3, 1, 0, 0, 0, 0⟩
  | AnimationPreset.panLeft => ⟨1.2, 1.2, 10, -10, 0, 0⟩
  | AnimationPreset.panRight => ⟨1.2, 1.2, -10, 10, 0, 0⟩
  | AnimationPreset.panUp => ⟨1.2, 1.2, 0, 0, 10, -10⟩
  | AnimationPreset.panDown => ⟨1.2, 1.2, 0, 0, -10, 10⟩
  | AnimationPreset.kenBurns => ⟨1, 1.25, -5, 5, -3, 3⟩

/-- Scale of ImageAnimator.tsx: interpolate over [0, durationInFrames]
with extrapolateRight clamp (left unspecified, hence extend). -/
def imageScale (preset : AnimationPreset) (durationInFrames frame : ℚ) : ℚ :=
  interpolate frame 0 durationInFrames (ANIMATION_CONFIGS preset).startScale
    (ANIMATION_CONFIGS preset).endScale Extrapolate.extend Extrapolate.clamp

/-- X translation of ImageAnimator.tsx. -/
def imageTranslateX (preset : AnimationPreset) (durationInFrames frame : ℚ) : ℚ :=
  interpolate frame 0 durationInFrames (ANIMATION_CONFIGS preset).startX
    (ANIMATION_CONFIGS preset).endX Extrapolate.extend Extrapolate.clamp

/-- Y translation of ImageAnimator.tsx. -/
def imageTranslateY (preset : AnimationPreset) (durationInFrames frame : ℚ) : ℚ :=
  interpolate frame 0 durationInFrames (ANIMATION_CONFIGS preset).startY
    (ANIMATION_CONFIGS preset).endY Extrapolate.extend Extrapolate.clamp

/-- The kinematics formula exactly as worded in spec section 4.2:
base position plus primary offset plus secondary offset with the fixed
constant 1.3 on the secondary y-speed, with angular time
t = (frame / totalFrames) * 2 pi. -/
noncomputable def specNodePosition (node : NodeData) (frame totalFrames : ℝ) : ℝ × ℝ :=
  let t := frame / totalFrames * (2 * Real.pi)
  (node.baseX + Real.cos (t * node.orbitSpeed + node.orbitPhase) * node.orbitRadius
      + Real.cos (t * node.secondarySpeed + node.secondaryPhase) * node.secondaryRadius,
   node.baseY + Real.sin (t * node.orbitSpeed + node.orbitPhase) * node.orbitRadius
      + Real.sin (t * node.secondarySpeed * 1.3 + node.secondaryPhase) * node.secondaryRadius)

lemma seededRandom_eq_fract (s : ℝ) :
    seededRandom s = Int.fract (Real.sin (s * 9999) * 10000) := rfl

/-- C7: seededRandom is total on integer seeds, always lands in [0, 1),
and as a pure function returns the same value for the same seed on every
invocation (in particular at seed 42). -/
theorem seededRandom_range_and_deterministic (seed : ℤ) :
    (0 ≤ seededRandom (seed : ℝ) ∧ seededRandom (seed : ℝ) < 1) ∧
    seededRandom ((42 : ℤ) : ℝ) = seededRandom ((42 : ℤ) : ℝ) := by
  refine ⟨⟨?_, ?_⟩, rfl⟩
  · rw [seededRandom_eq_fract]
    exact Int.fract_nonneg _
  · rw [seededRandom_eq_fract]
    exact Int.fract_lt_one _

/-- C3: the computed position equals exactly the specified closed form:
base position plus primary orbit offset plus secondary wobble offset
whose y-component speed carries the fixed 1.3 multiplier, with
t = (frame / totalFrames) * 2 pi; no clamping to canvas bounds occurs. -/
theorem getNodePosition_eq_spec (node : NodeData) (frame totalFrames : ℝ) :
    getNodePosition node frame totalFrames = specNodePosition node frame totalFrames := by
  simp only [getNodePosition, specNodePosition]
  have ht : frame / totalFrames * Real.pi * 2 = frame / totalFrames * (2 * Real.pi) := by ring
  rw [ht]

/-- C5: each large-arc flag is 1 exactly when its own angular span
exceeds 180 degrees, the background flag from endAngle - startAngle and
the progress flag from (endAngle - startAngle) * progress, independently;
at (0, 200, progress 1) both are 1, and at (0, 90) the background flag
is 0. -/
theorem largeArcFlag_spec :
    (∀ s e : ℝ, largeArcFlag s e = 1 ↔ 180 < e - s) ∧
    (∀ s e p : ℝ, progressLargeArcFlag s e p = 1 ↔ 180 < (e - s) * p) ∧
    largeArcFlag 0 200 = 1 ∧ progressLargeArcFlag 0 200 1 = 1 ∧
    largeArcFlag 0 90 = 0 := by
  have h1 : ∀ s e : ℝ, largeArcFlag s e = 1 ↔ 180 < e - s := by
    intro s e
    unfold largeArcFlag
    split_ifs with h
    · simp [h]
    · simp [h]
  have h2 : ∀ s e p : ℝ, progressLargeArcFlag s e p = 1 ↔ 180 < (e - s) * p := by
    intro s e p
    unfold progressLargeArcFlag
    split_ifs with h
    · simp [h]
    · simp [h]
  refine ⟨h1, h2, ?_, ?_, ?_⟩
  · rw [h1]
    norm_num
  · rw [h2]
    norm_num
  · unfold largeArcFlag
    norm_num

/-- A sequence of calls to the position function, modelling repeated or
out-of-order frame evaluation: each call supplies (entity, frame,
totalFrames) and the answers are collected in order. -/
noncomputable def runCalls (calls : List (NodeData × ℝ × ℝ)) : List (ℝ × ℝ) :=
  calls.map fun c => getNodePosition c.1 c.2.1 c.2.2

lemma getElem?_append_cons {α : Type} (l1 l2 : List α) (a : α) :
    (l1 ++ a :: l2)[l1.length]? = some a := by
  rw [List.getElem?_append_right (le_refl _)]
  simp

/-- A concrete node used to instantiate the call-order theorem. -/
noncomputable def sampleNode : NodeData :=
  { id := 0, baseX := 400, baseY := 300, orbitRadius := 50, orbitSpeed := 1,
    orbitPhase := 0, secondaryRadius := 20, secondarySpeed := 3, secondaryPhase := 0,
    size := 8, color := "#00BFFF" }

/-- C1: evaluating the position function for a fixed (entity, frame,
totalFrames) inside any two call sequences, with arbitrary other calls
before and after, yields the same answer, equal to the pure value
getNodePosition: the function reads and writes no mutable state, so
frames may be recomputed or computed out of order with identical
results. -/
theorem getNodePosition_call_order_independent (node : NodeData) (frame totalFrames : ℝ)
    (_hT : 0 < totalFrames) (pre1 post1 pre2 post2 : List (NodeData × ℝ × ℝ)) :
    (runCalls (pre1 ++ (node, frame, totalFrames) :: post1))[pre1.length]? =
      some (getNodePosition node frame totalFrames) ∧
    (runCalls (pre2 ++ (node, frame, totalFrames) :: post2))[pre2.length]? =
      some (getNodePosition node frame totalFrames) := by
  have h : ∀ pre post : List (NodeData × ℝ × ℝ),
      (runCalls (pre ++ (node, frame, totalFrames) :: post))[pre.length]? =
        some (getNodePosition node frame totalFrames) := by
    intro pre post
    have hsplit : runCalls (pre ++ (node, frame, totalFrames) :: post)
        = runCalls pre ++ getNodePosition node frame totalFrames :: runCalls post := by
      simp [runCalls]
    have hlen : pre.length = (runCalls pre).length := by simp [runCalls]
    rw [hsplit, hlen, getElem?_append_cons]
  exact ⟨h pre1 post1, h pre2 post2⟩

/-- Witness for C1 at a concrete node, frame 0, totalFrames 1, with empty
surrounding call lists. -/
theorem getNodePosition_call_order_independent_witness :
    (0 : ℝ) < 1 ∧
    ((runCalls [(sampleNode, 0, 1)])[0]? = some (getNodePosition sampleNode 0 1) ∧
     (runCalls [(sampleNode, 0, 1)])[0]? = some (getNodePosition sampleNode 0 1)) :=
  ⟨one_pos, getNodePosition_call_order_independent sampleNode 0 1 one_pos [] [] [] []⟩

/-- A concrete node whose parameters all lie in the generator's ranges
(orbitSpeed in [0.5, 2), secondarySpeed in [2, 5), orbitRadius in
[30, 130), secondaryRadius in [10, 40), phases in [0, 2 pi)). -/
noncomputable def loopNode : NodeData :=
  { id := 0, baseX := 0, baseY := 0, orbitRadius := 100, orbitSpeed := 1 / 2,
    orbitPhase := 0, secondaryRadius := 10, secondarySpeed := 2, secondaryPhase := 0,
    size := 8, color := "#00BFFF" }

/-- C2: the orbit path is not periodic over totalFrames: for a node whose
speeds lie in the generator's ranges (orbitSpeed 0.5, secondarySpeed 2),
the x coordinate at frame 0 is 110 but at frame 150 (of 150) it is -90,
because cos(2 pi * orbitSpeed) differs from cos 0 for non-integer
orbitSpeed; the loop seam the code comments promise is broken. -/
theorem getNodePosition_loop_seam_broken :
    ((1 : ℝ) / 2 = loopNode.orbitSpeed ∧ (0.5 : ℝ) ≤ 1 / 2 ∧ (1 : ℝ) / 2 < 2) ∧
    ((2 : ℝ) = loopNode.secondarySpeed ∧ (2 : ℝ) ≤ 2 ∧ (2 : ℝ) < 5) ∧
    (getNodePosition loopNode 0 150).1 = 110 ∧
    (getNodePosition loopNode 150 150).1 = -90 ∧
    getNodePosition loopNode 150 150 ≠ getNodePosition loopNode 0 150 := by
  have hx0 : (getNodePosition loopNode 0 150).1 = 110 := by
    simp only [getNodePosition, loopNode]
    norm_num
  have hcos4 : Real.cos (2 * (2 * Real.pi)) = 1 := by
    have h := Real.cos_nat_mul_two_pi 2
    push_cast at h
    exact h
  have hxT : (getNodePosition loopNode 150 150).1 = -90 := by
    simp only [getNodePosition, loopNode]
    have e1 : (150 : ℝ) / 150 * Real.pi * 2 * (1 / 2) + 0 = Real.pi := by
      norm_num
      ring
    have e2 : (150 : ℝ) / 150 * Real.pi * 2 * 2 + 0 = 2 * (2 * Real.pi) := by
      norm_num
      ring
    rw [e1, e2, Real.cos_pi, hcos4]
    norm_num
  refine ⟨⟨rfl, by norm_num, by norm_num⟩, ⟨rfl, le_refl _, by norm_num⟩, hx0, hxT, ?_⟩
  intro heq
  have h1 := congrArg Prod.fst heq
  rw [hxT, hx0] at h1
  norm_num at h1

/-- C6 counterexample: with extrapolateRight clamp and the default
(extend) left policy, frame -100 on input range [0, 100] and output
range [0, 1] interpolates to -1, not to 0 as the claim states for all
frames at most 0. -/
theorem interpolate_extendLeft_counterexample :
    interpolate (-100) 0 100 0 1 Extrapolate.extend Extrapolate.clamp ≠ 0 := by
  norm_num [interpolate]

/-- C6 (amended): with input range [0, 100], output range [0, 1] and
extrapolateRight clamp, the result is exactly 1 for every frame at least
100, and exactly 0 at frame 0; for negative frames the default left
policy extends the segment slope linearly (giving frame/100), so the
value 0 is only guaranteed at the left boundary itself. -/
theorem interpolate_clampRight_amended (frame : ℚ) (h : 100 ≤ frame) :
    interpolate frame 0 100 0 1 Extrapolate.extend Extrapolate.clamp = 1 ∧
    interpolate 0 0 100 0 1 Extrapolate.extend Extrapolate.clamp = 0 := by
  constructor
  · unfold interpolate
    split_ifs with h1 h2
    · linarith
    · rfl
    · have hf : frame = 100 := le_antisymm (not_lt.1 h2) h
      rw [hf]
      norm_num
  · norm_num [interpolate]

/-- Witness for C6 (amended) at frame 150. -/
theorem interpolate_clampRight_amended_witness :
    (100 : ℚ) ≤ 150 ∧
    (interpolate 150 0 100 0 1 Extrapolate.extend Extrapolate.clamp = 1 ∧
     interpolate 0 0 100 0 1 Extrapolate.extend Extrapolate.clamp = 0) :=
  ⟨by norm_num, interpolate_clampRight_amended 150 (by norm_num)⟩

/-- C8: for the ken-burns preset over 150 frames, the scale at frame 0 is
exactly the preset's startScale 1, the scale at frame 149 is exactly
1 + 0.25 * 149/150 (approximately 1.25), and the X translation at frame
75 is the midpoint of startX = -5 and endX = 5, namely 0. -/
theorem kenBurns_scenario :
    imageScale AnimationPreset.kenBurns 150 0 = (ANIMATION_CONFIGS AnimationPreset.kenBurns).startScale ∧
    imageScale AnimationPreset.kenBurns 150 0 = 1 ∧
    imageScale AnimationPreset.kenBurns 150 149 = 1 + 0.25 * (149 / 150) ∧
    imageTranslateX AnimationPreset.kenBurns 150 75 =
      ((ANIMATION_CONFIGS AnimationPreset.kenBurns).startX
        + (ANIMATION_CONFIGS AnimationPreset.kenBurns).endX) / 2 ∧
    imageTranslateX AnimationPreset.kenBurns 150 75 = 0 := by
  refine ⟨?_, ?_, ?_, ?_, ?_⟩ <;>
    norm_num [imageScale, imageTranslateX, interpolate, ANIMATION_CONFIGS]

/-- C9: degenerate configurations are no-ops, not errors: zero entities
give an empty node list, an empty position list and an empty edge list,
and a gauge whose startAngle equals its endAngle has a point background
path (start and end coincide), a point progress path, and every tick mark
pinned at that single angle. -/
theorem degenerate_configs_noop (width height nodeSize frame dur threshold : ℝ)
    (accentColor secondaryColor : String)
    (cx cy radius startAngle endAngle progress : ℝ) (tickCount : ℕ)
    (hdeg : startAngle = endAngle) :
    generateNodes 0 width height nodeSize accentColor secondaryColor = [] ∧
    framePositions (generateNodes 0 width height nodeSize accentColor secondaryColor) frame dur = [] ∧
    buildEdges (framePositions (generateNodes 0 width height nodeSize accentColor secondaryColor)
      frame dur) threshold = [] ∧
    (arcGauge cx cy radius startAngle endAngle progress tickCount).bgStart =
      (arcGauge cx cy radius startAngle endAngle progress tickCount).bgEnd ∧
    (arcGauge cx cy radius startAngle endAngle progress tickCount).progressEnd =
      (arcGauge cx cy radius startAngle endAngle progress tickCount).bgStart ∧
    ∀ t ∈ (arcGauge cx cy radius startAngle endAngle progress tickCount).ticks,
      t.outer = polarToCartesian cx cy startAngle (radius + 2) ∧
      (t.inner = polarToCartesian cx cy startAngle (radius - 12) ∨
       t.inner = polarToCartesian cx cy startAngle (radius - 6)) := by
  subst hdeg
  refine ⟨?_, ?_, ?_, rfl, ?_, ?_⟩
  · simp [generateNodes]
  · simp [generateNodes, framePositions]
  · simp [generateNodes, framePositions, buildEdges]
  · show polarToCartesian cx cy (startAngle + (startAngle - startAngle) * progress) radius
        = polarToCartesian cx cy startAngle radius
    rw [show startAngle + (startAngle - startAngle) * progress = startAngle by ring]
  · intro t ht
    simp only [arcGauge, List.mem_map, List.mem_range] at ht
    obtain ⟨i, _, rfl⟩ := ht
    have hangle : startAngle + (startAngle - startAngle) * ((i : ℝ) / (tickCount : ℝ))
        = startAngle := by ring
    rw [hangle]
    refine ⟨rfl, ?_⟩
    by_cases hmaj : i % 3 = 0
    · left
      simp [hmaj]
    · right
      simp [hmaj]

/-- Witness for C9 at concrete inputs (all parameters 0 or 1, tickCount
12, startAngle = endAngle = 45). -/
theorem degenerate_configs_noop_witness :
    (45 : ℝ) = 45 ∧
    (generateNodes 0 1920 1080 8 "#00BFFF" "#FF6B6B" = [] ∧
     framePositions (generateNodes 0 1920 1080 8 "#00BFFF" "#FF6B6B") 0 150 = [] ∧
     buildEdges (framePositions (generateNodes 0 1920 1080 8 "#00BFFF" "#FF6B6B") 0 150) 300 = [] ∧
     (arcGauge 140 160 120 45 45 0.7 12).bgStart = (arcGauge 140 160 120 45 45 0.7 12).bgEnd ∧
     (arcGauge 140 160 120 45 45 0.7 12).progressEnd = (arcGauge 140 160 120 45 45 0.7 12).bgStart ∧
     ∀ t ∈ (arcGauge 140 160 120 45 45 0.7 12).ticks,
       t.outer = polarToCartesian 140 160 45 (120 + 2) ∧
       (t.inner = polarToCartesian 140 160 45 (120 - 12) ∨
        t.inner = polarToCartesian 140 160 45 (120 - 6))) :=
  ⟨rfl, degenerate_configs_noop 1920 1080 8 0 150 300 "#00BFFF" "#FF6B6B"
    140 160 120 45 45 0.7 12 rfl⟩

/-- C10: the palette index floor(seededRandom(i*1000 + 10) * 5) is an
integer in {0, 1, 2, 3, 4}, so the palette access is in bounds and every
generated node's color is one of the five palette colors, never the
out-of-bounds sentinel. -/
theorem nodeColor_in_palette (i : ℕ) (width height nodeSize : ℝ)
    (accentColor secondaryColor : String) :
    (0 ≤ colorIndex i (palette accentColor secondaryColor).length ∧
      colorIndex i (palette accentColor secondaryColor).length < 5) ∧
    (∃ c, (palette accentColor secondaryColor)[(colorIndex i
        (palette accentColor secondaryColor).length).toNat]? = some c ∧
      c ∈ palette accentColor secondaryColor) ∧
    (mkNode i width height nodeSize accentColor secondaryColor).color ∈
      palette accentColor secondaryColor := by
  have hlen : (palette accentColor secondaryColor).length = 5 := rfl
  have hfr0 : 0 ≤ seededRandom ((i : ℝ) * 1000 + 10) := by
    rw [seededRandom_eq_fract]
    exact Int.fract_nonneg _
  have hfr1 : seededRandom ((i : ℝ) * 1000 + 10) < 1 := by
    rw [seededRandom_eq_fract]
    exact Int.fract_lt_one _
  have hidx0 : 0 ≤ colorIndex i 5 := by
    unfold colorIndex
    exact Int.floor_nonneg.mpr (by positivity)
  have hidx5 : colorIndex i 5 < 5 := by
    unfold colorIndex
    have h5 : seededRandom ((i : ℝ) * 1000 + 10) * ((5 : ℕ) : ℝ) < 5 := by
      push_cast
      nlinarith
    have := Int.floor_lt.mpr (by push_cast; linarith : seededRandom ((i : ℝ) * 1000 + 10)
      * ((5 : ℕ) : ℝ) < ((5 : ℤ) : ℝ))
    exact this
  have htn : (colorIndex i 5).toNat < (palette accentColor secondaryColor).length := by
    rw [hlen]
    omega
  have hsome : ∃ c, (palette accentColor secondaryColor)[(colorIndex i 5).toNat]? = some c ∧
      c ∈ palette accentColor secondaryColor :=
    ⟨_, List.getElem?_eq_getElem htn, List.getElem_mem htn⟩
  obtain ⟨c, hc, hcmem⟩ := hsome
  refine ⟨⟨by rw [hlen]; exact hidx0, by rw [hlen]; exact hidx5⟩, ?_, ?_⟩
  · rw [hlen]
    exact ⟨c, hc, hcmem⟩
  · show (((palette accentColor secondaryColor)[(colorIndex i
        (palette accentColor secondaryColor).length).toNat]?).getD "undefined") ∈ _
    rw [hlen, hc]
    exact hcmem

lemma mem_innerEdges (positions : List (ℝ × ℝ)) (threshold : ℝ) (i a b : ℕ) (c : ℝ) :
    (a, b, c) ∈ innerEdges positions threshold i ↔
      a = i ∧ i < b ∧ b < positions.length ∧
      pairDistance positions i b < threshold ∧
      c = connectionOpacity (pairDistance positions i b) threshold := by
  unfold innerEdges
  rw [List.mem_filterMap]
  constructor
  · rintro ⟨j, hj, hsome⟩
    rw [List.mem_range'] at hj
    obtain ⟨k, hk, rfl⟩ := hj
    by_cases hd : pairDistance positions i (i + 1 + 1 * k) < threshold
    · rw [if_pos hd] at hsome
      obtain ⟨rfl, rfl, rfl⟩ : i = a ∧ i + 1 + 1 * k = b ∧
          connectionOpacity (pairDistance positions i (i + 1 + 1 * k)) threshold = c := by
        simpa [Prod.ext_iff] using hsome
      exact ⟨rfl, by omega, by omega, hd, rfl⟩
    · rw [if_neg hd] at hsome
      exact absurd hsome (by simp)
  · rintro ⟨rfl, hab, hblen, hd, rfl⟩
    refine ⟨b, ?_, by rw [if_pos hd]⟩
    rw [List.mem_range']
    exact ⟨b - (a + 1), by omega, by omega⟩

lemma innerEdges_fst (positions : List (ℝ × ℝ)) (threshold : ℝ) (i : ℕ) :
    ∀ x ∈ innerEdges positions threshold i, x.1 = i := by
  intro x hx
  obtain ⟨a, b, c⟩ := x
  rw [mem_innerEdges] at hx
  exact hx.1

lemma innerEdges_sorted (positions : List (ℝ × ℝ)) (threshold : ℝ) (i : ℕ) :
    (innerEdges positions threshold i).Pairwise fun x y => x.2.1 < y.2.1 := by
  unfold innerEdges
  refine List.Pairwise.filterMap _ ?_ (List.pairwise_lt_range' _ _)
  intro j1 j2 hlt x hx y hy
  by_cases h1 : pairDistance positions i j1 < threshold
  · by_cases h2 : pairDistance positions i j2 < threshold
    · rw [if_pos h1] at hx
      rw [if_pos h2] at hy
      obtain rfl : x = (i, j1, connectionOpacity (pairDistance positions i j1) threshold) := by
        simpa using hx.symm
      obtain rfl : y = (i, j2, connectionOpacity (pairDistance positions i j2) threshold) := by
        simpa using hy.symm
      exact hlt
    · rw [if_neg h2] at hy
      exact absurd hy (by simp)
  · rw [if_neg h1] at hx
    exact absurd hx (by simp)

lemma pairDistance_nonneg (positions : List (ℝ × ℝ)) (i j : ℕ) :
    0 ≤ pairDistance positions i j := by
  unfold pairDistance getDistance
  exact Real.sqrt_nonneg _

/-- C4: the edge list contains (i, j, op) exactly when i < j, j is a
valid index, and the distance between positions i and j is strictly below
the threshold, with op = (1 - distance/threshold)^2 * 0.8 (so there are
no self-edges and no reversed duplicates); every emitted opacity lies in
(0, 0.8]; and the list is strictly sorted by ascending i, then
ascending j. -/
theorem buildEdges_spec (positions : List (ℝ × ℝ)) (threshold : ℝ) (hpos : 0 < threshold) :
    (∀ i j op, (i, j, op) ∈ buildEdges positions threshold ↔
      (i < j ∧ j < positions.length ∧ pairDistance positions i j < threshold ∧
       op = connectionOpacity (pairDistance positions i j) threshold)) ∧
    (∀ e ∈ buildEdges positions threshold, 0 < e.2.2 ∧ e.2.2 ≤ 0.8) ∧
    (buildEdges positions threshold).Pairwise fun x y =>
      x.1 < y.1 ∨ (x.1 = y.1 ∧ x.2.1 < y.2.1) := by
  have hmem : ∀ i j op, (i, j, op) ∈ buildEdges positions threshold ↔
      (i < j ∧ j < positions.length ∧ pairDistance positions i j < threshold ∧
       op = connectionOpacity (pairDistance positions i j) threshold) := by
    intro i j op
    unfold buildEdges
    rw [List.mem_flatMap]
    constructor
    · rintro ⟨i', _, hmem'⟩
      rw [mem_innerEdges] at hmem'
      obtain ⟨rfl, hib, hblen, hd, hop⟩ := hmem'
      exact ⟨hib, hblen, hd, hop⟩
    · rintro ⟨hij, hjlen, hd, hop⟩
      refine ⟨i, ?_, ?_⟩
      · rw [List.mem_range]
        omega
      · rw [mem_innerEdges]
        exact ⟨rfl, hij, hjlen, hd, hop⟩
  refine ⟨hmem, ?_, ?_⟩
  · intro e he
    obtain ⟨i, j, op⟩ := e
    rw [hmem] at he
    obtain ⟨hij, hjlen, hd, hop⟩ := he
    have hd0 : 0 ≤ pairDistance positions i j := pairDistance_nonneg positions i j
    have hlt1 : pairDistance positions i j / threshold < 1 := (div_lt_one hpos).mpr hd
    have hge0 : 0 ≤ pairDistance positions i j / threshold := div_nonneg hd0 hpos.le
    have hbase0 : 0 < 1 - pairDistance positions i j / threshold := by linarith
    have hbase1 : 1 - pairDistance positions i j / threshold ≤ 1 := by linarith
    subst hop
    unfold connectionOpacity
    constructor
    · have := pow_pos hbase0 2
      nlinarith
    · have := pow_le_one₀ hbase0.le hbase1 (n := 2)
      nlinarith
  · unfold buildEdges
    rw [List.pairwise_flatMap]
    constructor
    · intro i _
      refine List.Pairwise.imp_of_mem ?_ (innerEdges_sorted positions threshold i)
      intro x y hx hy hxy
      exact Or.inr ⟨(innerEdges_fst positions threshold i x hx).trans
        (innerEdges_fst positions threshold i y hy).symm, hxy⟩
    · refine List.Pairwise.imp ?_ (List.pairwise_lt_range _)
      intro i1 i2 h12 x hx y hy
      rw [innerEdges_fst positions threshold i1 x hx, innerEdges_fst positions threshold i2 y hy]
      exact Or.inl h12

/-- A concrete position list used to instantiate the edge-list theorem. -/
noncomputable def samplePositions : List (ℝ × ℝ) := [(0, 0), (3, 4)]

/-- Witness for C4 at a concrete position list and threshold 1. -/
theorem buildEdges_spec_witness :
    (0 : ℝ) < 1 ∧
    ((∀ i j op, (i, j, op) ∈ buildEdges samplePositions 1 ↔
      (i < j ∧ j < samplePositions.length ∧ pairDistance samplePositions i j < 1 ∧
       op = connectionOpacity (pairDistance samplePositions i j) 1)) ∧
    (∀ e ∈ buildEdges samplePositions 1, 0 < e.2.2 ∧ e.2.2 ≤ 0.8) ∧
    (buildEdges samplePositions 1).Pairwise fun x y =>
      x.1 < y.1 ∨ (x.1 = y.1 ∧ x.2.1 < y.2.1)) :=
  ⟨one_pos, buildEdges_spec samplePositions 1 one_pos⟩
